import Mathlib

/-!
Verification development for the podcast audio pipeline in `tools.py`
(`PodcastAudioGenerator._run` and `PodcastMixer._run`).

The Python code is shallowly embedded: pure string and list manipulation is
translated directly; the external collaborators (the ElevenLabs client, pydub
decoding and encoding, the filesystem) are modelled by oracles carried in an
environment record, and the audio operations performed on decoded segments are
recorded as a free term algebra (`AExpr`) together with a trace of filesystem
effects (`FsEvent`).  All definitions are executable.
-/

/-! ### Python primitives used by the code -/

/-- Python `str.strip()`: remove leading and trailing whitespace characters.
Embedded on the character list, so that it evaluates in the kernel. -/
def pyStrip (s : String) : String :=
  String.mk (((s.data.dropWhile Char.isWhitespace).reverse.dropWhile Char.isWhitespace).reverse)

/-- Three-way lexicographic comparison of character lists by code point, the
order Python uses to compare `str` values. -/
def cmpChars : List Char → List Char → Ordering
  | [], [] => .eq
  | [], _ :: _ => .lt
  | _ :: _, [] => .gt
  | a :: as, b :: bs => if a < b then .lt else if b < a then .gt else cmpChars as bs

/-- Python string `<` (lexicographic by code point), as a Boolean. -/
def strLtb (s t : String) : Bool := cmpChars s.data t.data == .lt

/-- Python string `<=`, the order `sorted` sorts by (ascending). -/
def pyLe (a b : String) : Prop := strLtb b a = false

instance pyLeDecidable : DecidableRel pyLe := fun _a _b => instDecidableEqBool _ _

/-- Python `sorted` on a list of strings: a stable sort, ascending with
respect to lexicographic string comparison. -/
def pySorted (l : List String) : List String := List.insertionSort pyLe l

/-- Python `f-string` formatting `{n:03d}` for a natural number: the decimal
representation, left-padded with zeros to width at least 3. -/
def pad3 (n : Nat) : String :=
  let s := Nat.repr n
  if s.data.length ≥ 3 then s else String.mk (List.replicate (3 - s.data.length) '0' ++ s.data)

/-- Numeric value of a list of decimal digit characters (most significant
first), used to read an ordinal back out of a produced filename. -/
def digitsToNat (l : List Char) : Nat := l.foldl (fun acc c => acc * 10 + (c.toNat - 48)) 0

/-- Python `os.path.isabs` on POSIX: the path starts with a slash. -/
def isAbs (p : String) : Bool := p.data.head? = some '/'

/-- Python `os.path.join(a, b)` on POSIX for a single join step. -/
def joinPath (a b : String) : String :=
  if isAbs b then b
  else if a = "" then b
  else if a.data.getLast? = some '/' then a ++ b
  else a ++ "/" ++ b

/-! ### Data model (from `tools.py`) -/

/-- `VoiceConfig` from `tools.py`.  The three float-valued prosody fields
(`stability`, `similarity_boost`, `style`) are only forwarded verbatim to the
external synthesis collaborator and are not statable as floating point; they
are omitted here.  The remaining fields are kept. -/
structure VoiceConfig where
  use_speaker_boost : Bool := true
  model_id : String := "eleven_multilingual_v2"
  output_format : String := "mp3_44100_128"
  apply_text_normalization : String := "auto"
deriving Repr, DecidableEq

/-- `AudioConfig` from `tools.py`.  The float fields `target_loudness` and
`compression_ratio` are never read by `_run` of either tool and are omitted. -/
structure AudioConfig where
  format : String := "mp3"
  sample_rate : Nat := 48000
  channels : Nat := 2
  bitrate : String := "256k"
  normalize : Bool := true
deriving Repr, DecidableEq

/-- One dialogue line as consumed by the generator: a dict with keys
`speaker` and `text` (absent keys, which `.get(key, '')` turns into the empty
string, are represented by the empty string). -/
structure Seg where
  speaker : String
  text : String
deriving Repr, DecidableEq

/-- A registered voice: the value stored by `add_voice`, a dict holding the
voice id and a `VoiceConfig`.  `add_voice` always stores a non-empty dict, so
the registered value is never falsy. -/
structure VoiceEntry where
  voice_id : String
  config : VoiceConfig
deriving Repr, DecidableEq

/-- Association-list lookup with string keys: Python `dict.get` for the
`voice_configs` mapping. -/
def lookupVoice (m : List (String × VoiceEntry)) (name : String) : Option VoiceEntry :=
  match m with
  | [] => none
  | (k, v) :: rest => if k = name then some v else lookupVoice rest name

/-! ### Audio expressions and filesystem events -/

/-- Free term algebra over the pydub operations the code performs on decoded
audio: this records exactly how an exported segment was computed. -/
inductive AExpr where
  | fromFile (path : String)
  | normalize (a : AExpr)
  | gainDb (a : AExpr) (db : Int)
  | silent (durationMs : Nat)
  | concat (a b : AExpr)
  | appendCrossfade (a b : AExpr) (crossfadeMs : Nat)
deriving Repr, DecidableEq

/-- Filesystem effects the two tools perform, in program order. -/
inductive FsEvent where
  | mkdir (dir : String)
  | writeBytes (path : String)
  | decodeFile (path : String)
  | exportAudio (path : String) (audio : AExpr) (format : String)
      (bitrate : Option String) (params : List String)
deriving Repr, DecidableEq

/-- Whether an event creates or overwrites the named file.  `mkdir` creates a
directory, and decoding only reads. -/
def touchesFile : FsEvent → String → Bool
  | .mkdir _, _ => false
  | .writeBytes p, q => p = q
  | .decodeFile _, _ => false
  | .exportAudio p _ _ _ _, q => p = q

/-- Whether an event is a decode (a `AudioSegment.from_file` call). -/
def isDecodeEvent : FsEvent → Bool
  | .decodeFile _ => true
  | _ => false

/-- The `(path, audio)` pairs of the export events of a trace. -/
def exportEvents (evs : List FsEvent) : List (String × AExpr) :=
  evs.filterMap fun e =>
    match e with
    | .exportAudio p a _ _ _ => some (p, a)
    | _ => none

/-! ### PodcastAudioGenerator -/

/-- Configuration of a `PodcastAudioGenerator` instance: the registered
voices, the audio configuration and the output directory. -/
structure GenConfig where
  voice_configs : List (String × VoiceEntry)
  audio_config : AudioConfig
  output_dir : String

/-- Oracles for the two groups of operations inside the per-line `try` block
that can raise: `synthOk i` is true when the synthesis call, the byte
concatenation and the file write for line `i` succeed, and `normOk i` is true
when the optional normalization pass for line `i` succeeds.  A synthesis
failure is modelled as occurring before a completed write. -/
structure GenEnv where
  synthOk : Nat → Bool
  normOk : Nat → Bool

/-- The filename pattern of line 102 of `tools.py`:
`{output_dir}/{index:03d}_{speaker}.{format}`. -/
def mkFilename (dir : String) (index : Nat) (speaker : String) (fmt : String) : String :=
  dir ++ "/" ++ pad3 index ++ "_" ++ speaker ++ "." ++ fmt

/-- The ordinal prefix of a produced path: the digits that follow
`{dir}/`, read as a number.  This is the ordering key the spec calls the
path's ordinal prefix. -/
def ordKey (dir : String) (path : String) : Nat :=
  digitsToNat ((path.data.drop (dir.data.length + 1)).takeWhile Char.isDigit)

/-- One iteration of the loop of `PodcastAudioGenerator._run`
(lines 72 to 126 of `tools.py`): returns the path appended to `audio_files`
for this segment, if any, together with the filesystem events performed. -/
def processSegment (cfg : GenConfig) (env : GenEnv) (index : Nat) (segment : Seg) :
    Option String × List FsEvent :=
  let speaker := pyStrip segment.speaker
  let text := pyStrip segment.text
  if speaker = "" ∨ text = "" then (none, [])
  else
    match lookupVoice cfg.voice_configs speaker with
    | none => (none, [])
    | some _vc =>
      if env.synthOk index then
        let filename := mkFilename cfg.output_dir index speaker cfg.audio_config.format
        if cfg.audio_config.normalize then
          if env.normOk index then
            (some filename,
              [.writeBytes filename,
               .decodeFile filename,
               .exportAudio filename (.gainDb (.normalize (.fromFile filename)) 4)
                 cfg.audio_config.format (some cfg.audio_config.bitrate)
                 ["-ar", Nat.repr cfg.audio_config.sample_rate]])
          else (none, [.writeBytes filename])
        else (some filename, [.writeBytes filename])
      else (none, [])

/-- The whole `for index, segment in enumerate(dialogue)` loop: the
`audio_files` list in append order, and the concatenated event trace. -/
def genLoop (cfg : GenConfig) (env : GenEnv) : Nat → List Seg → List String × List FsEvent
  | _, [] => ([], [])
  | i, seg :: rest =>
    let step := processSegment cfg env i seg
    let tail := genLoop cfg env (i + 1) rest
    (match step.1 with
     | none => tail.1
     | some f => f :: tail.1,
     step.2 ++ tail.2)

/-- `PodcastAudioGenerator._run`: returns `sorted(audio_files)`. -/
def runGen (cfg : GenConfig) (env : GenEnv) (dialogue : List Seg) : List String :=
  pySorted (genLoop cfg env 0 dialogue).1

/-- The event trace of `PodcastAudioGenerator._run`: the `os.makedirs` call
followed by the per-line events. -/
def runGenEvents (cfg : GenConfig) (env : GenEnv) (dialogue : List Seg) : List FsEvent :=
  FsEvent.mkdir cfg.output_dir :: (genLoop cfg env 0 dialogue).2

/-- The `(index, trimmed speaker)` pairs of the lines that contribute a path,
in input order: the analytic companion of `genLoop`. -/
def successPairs (cfg : GenConfig) (env : GenEnv) : Nat → List Seg → List (Nat × String)
  | _, [] => []
  | i, seg :: rest =>
    match (processSegment cfg env i seg).1 with
    | none => successPairs cfg env (i + 1) rest
    | some _ => (i, pyStrip seg.speaker) :: successPairs cfg env (i + 1) rest

/-! ### Dialogue elements that are not dicts (claim C9) -/

/-- A runtime element of the `dialogue` argument: either a dict (on which
`.get` works) or an instance of the declared `Dialogue` pydantic model, which
has the two fields but no `.get` method. -/
inductive DialogueElem where
  | dictElem (speaker text : String)
  | modelElem (speaker text : String)
deriving Repr, DecidableEq

/-- The `segment.get(...)` accesses of lines 73 and 74: on a dict they return
the two values; on a `Dialogue` model instance they raise `AttributeError`. -/
def segGet : DialogueElem → Except Unit (String × String)
  | .dictElem sp tx => .ok (sp, tx)
  | .modelElem _ _ => .error ()

/-- Whether a runtime element is dict-like. -/
def isDictElem : DialogueElem → Bool
  | .dictElem _ _ => true
  | .modelElem _ _ => false

/-- View a `Seg` as the dict element it is at runtime. -/
def Seg.toElem (s : Seg) : DialogueElem := .dictElem s.speaker s.text

/-- The generator loop over runtime elements: the `.get` calls sit before the
per-line `try`, so an element without `.get` raises out of the whole loop. -/
def genLoopE (cfg : GenConfig) (env : GenEnv) : Nat → List DialogueElem → Except Unit (List String)
  | _, [] => .ok []
  | i, e :: rest =>
    match segGet e with
    | .error u => .error u
    | .ok (sp, tx) =>
      match (processSegment cfg env i ⟨sp, tx⟩).1 with
      | none => genLoopE cfg env (i + 1) rest
      | some f =>
        match genLoopE cfg env (i + 1) rest with
        | .error u => .error u
        | .ok tail => .ok (f :: tail)

/-- `PodcastAudioGenerator._run` on runtime elements: raises if and only if
the loop raises, and sorts the collected list otherwise. -/
def runGenE (cfg : GenConfig) (env : GenEnv) (dialogue : List DialogueElem) :
    Except Unit (List String) :=
  match genLoopE cfg env 0 dialogue with
  | .error u => .error u
  | .ok l => .ok (pySorted l)

/-! ### PodcastMixer -/

/-- Configuration of a `PodcastMixer` instance. -/
structure MixConfig where
  audio_config : AudioConfig
  output_dir : String

/-- Environment of one mixer invocation: the working directory, which
resolved paths exist, and oracles for the operations that can raise (decoding
a segment, exporting the final file). -/
structure MixEnv where
  cwd : String
  fsExists : String → Bool
  decodeOk : String → Bool
  exportOk : Bool

/-- Line 157 of `tools.py`: a relative segment path is resolved against the
current working directory. -/
def resolveSegmentPath (env : MixEnv) (af : String) : String :=
  if isAbs af then af else joinPath env.cwd af

/-- The validation loop (lines 154 to 161): resolve each path and require it
to exist, collecting the resolved paths; the first missing file makes the
whole call return the empty string. -/
def validateLoop (env : MixEnv) : List String → Option (List String)
  | [] => some []
  | af :: rest =>
    let p := resolveSegmentPath env af
    if env.fsExists p then (validateLoop env rest).map (p :: ·) else none

/-- The mixing loop (lines 167 to 173): decode each subsequent file, prepend
200 ms of silence, and append onto the accumulator with the given crossfade.
Returns the accumulated expression (none when a decode raises) and the decode
events that completed. -/
def mixLoop (env : MixEnv) (crossfade : Nat) :
    AExpr → List String → Option AExpr × List FsEvent
  | mixed, [] => (some mixed, [])
  | mixed, f :: rest =>
    if env.decodeOk f then
      let tail := mixLoop env crossfade
        (.appendCrossfade mixed (.concat (.silent 200) (.fromFile f)) crossfade) rest
      (tail.1, .decodeFile f :: tail.2)
    else (none, [])

/-- `PodcastMixer._run` (lines 139 to 196): returns the result string and the
filesystem event trace.  Every raise inside the `try` is modelled by the
corresponding `("", events so far)` return of the `except` handler.  The
unreachable case of an empty validated list (an `IndexError` at line 164,
which the handler would also catch) likewise returns the empty string. -/
def mixRun (cfg : MixConfig) (env : MixEnv) (audioFiles : List String)
    (crossfade : Nat := 50) : String × List FsEvent :=
  if audioFiles.isEmpty then ("", [])
  else
    match validateLoop env audioFiles with
    | none => ("", [.mkdir cfg.output_dir])
    | some validated =>
      match validated with
      | [] => ("", [.mkdir cfg.output_dir])
      | v0 :: vrest =>
        if env.decodeOk v0 then
          let looped := mixLoop env crossfade (.fromFile v0) vrest
          match looped.1 with
          | some mixed =>
            let outputFile := joinPath cfg.output_dir "podcast_final.mp3"
            if env.exportOk then
              (outputFile,
                FsEvent.mkdir cfg.output_dir :: FsEvent.decodeFile v0 :: looped.2 ++
                  [.exportAudio outputFile mixed "mp3" none ["-q:a", "0", "-ar", "48000"]])
            else ("", FsEvent.mkdir cfg.output_dir :: FsEvent.decodeFile v0 :: looped.2)
          | none => ("", FsEvent.mkdir cfg.output_dir :: FsEvent.decodeFile v0 :: looped.2)
        else ("", [.mkdir cfg.output_dir])

/-- Modelled from the spec's description of the mixing algorithm, for
comparison with the code: decode the first file as the accumulator, then for
every subsequent file prepend 200 ms of silence and crossfade-append. -/
def specMixTrack (files : List String) (crossfadeMs : Nat) : Option AExpr :=
  match files with
  | [] => none
  | f :: rest =>
    some (rest.foldl
      (fun acc g => .appendCrossfade acc (.concat (.silent 200) (.fromFile g)) crossfadeMs)
      (.fromFile f))

/-! ### Lemmas about the string order -/

lemma cmpChars_eq_iff : ∀ {x y : List Char}, cmpChars x y = .eq ↔ x = y
  | [], [] => by simp [cmpChars]
  | [], _ :: _ => by simp [cmpChars]
  | _ :: _, [] => by simp [cmpChars]
  | a :: as, b :: bs => by
    unfold cmpChars
    by_cases hab : a < b
    · rw [if_pos hab]
      constructor
      · intro h; cases h
      · intro h
        injection h with h1 _
        exact absurd (h1 ▸ hab) (lt_irrefl b)
    · by_cases hba : b < a
      · rw [if_neg hab, if_pos hba]
        constructor
        · intro h; cases h
        · intro h
          injection h with h1 _
          exact absurd (h1 ▸ hba) (lt_irrefl b)
      · have hab' : a = b := le_antisymm (not_lt.mp hba) (not_lt.mp hab)
        subst hab'
        simp [hab, cmpChars_eq_iff]

lemma cmpChars_swap : ∀ (x y : List Char), cmpChars y x = (cmpChars x y).swap
  | [], [] => rfl
  | [], _ :: _ => rfl
  | _ :: _, [] => rfl
  | a :: as, b :: bs => by
    unfold cmpChars
    by_cases hab : a < b
    · simp [hab, not_lt.mpr (le_of_lt hab), Ordering.swap]
    · by_cases hba : b < a
      · simp [hab, hba, Ordering.swap]
      · simp [hab, hba, cmpChars_swap as bs]

lemma cmpChars_lt_trans : ∀ {x y z : List Char},
    cmpChars x y = .lt → cmpChars y z = .lt → cmpChars x z = .lt
  | [], y, [] => by
    intro _ h2
    cases y with
    | nil => simp [cmpChars] at h2
    | cons b bs => simp [cmpChars] at h2
  | [], _, _ :: _ => by intro _ _; rfl
  | a :: as, y, z => by
    intro h1 h2
    cases y with
    | nil => exact absurd h1 (by simp [cmpChars])
    | cons b bs =>
      cases z with
      | nil => exact absurd h2 (by simp [cmpChars])
      | cons c cs =>
        unfold cmpChars at h1 h2 ⊢
        by_cases hab : a < b
        · by_cases hbc : b < c
          · simp [lt_trans hab hbc]
          · by_cases hcb : c < b
            · simp [hbc, hcb] at h2
            · have : b = c := le_antisymm (not_lt.mp hcb) (not_lt.mp hbc)
              subst this
              simp [hab]
        · by_cases hba : b < a
          · simp [hab, hba] at h1
          · have : a = b := le_antisymm (not_lt.mp hba) (not_lt.mp hab)
            subst this
            simp [hab] at h1
            by_cases hbc : a < c
            · simp [hbc]
            · by_cases hcb : c < a
              · simp [hbc, hcb] at h2
              · simp [hbc, hcb] at h2 ⊢
                exact cmpChars_lt_trans h1 h2

lemma strLtb_iff {a b : String} : strLtb a b = true ↔ cmpChars a.data b.data = .lt := by
  unfold strLtb
  cases h : cmpChars a.data b.data <;> decide

lemma strLtb_eq_false_iff {a b : String} : strLtb a b = false ↔ cmpChars a.data b.data ≠ .lt := by
  unfold strLtb
  cases h : cmpChars a.data b.data <;> decide

lemma strLtb_trans {a b c : String} (h1 : strLtb a b = true) (h2 : strLtb b c = true) :
    strLtb a c = true :=
  strLtb_iff.mpr (cmpChars_lt_trans (strLtb_iff.mp h1) (strLtb_iff.mp h2))

lemma strLtb_asymm {a b : String} (h : strLtb a b = true) : strLtb b a = false := by
  rw [strLtb_eq_false_iff, cmpChars_swap a.data b.data, strLtb_iff.mp h]
  decide

lemma pyLe_of_strLtb {a b : String} (h : strLtb a b = true) : pyLe a b :=
  strLtb_asymm h

lemma pyLe_total : ∀ a b : String, pyLe a b ∨ pyLe b a := by
  intro a b
  by_cases h : strLtb b a = true
  · exact Or.inr (strLtb_asymm h)
  · exact Or.inl (by simpa [pyLe] using h)

lemma pyLe_trans : ∀ a b c : String, pyLe a b → pyLe b c → pyLe a c := by
  intro a b c h1 h2
  simp only [pyLe, strLtb_eq_false_iff] at h1 h2 ⊢
  intro hca
  cases hcb : cmpChars c.data b.data with
  | lt => exact h2 hcb
  | eq =>
    have : c.data = b.data := cmpChars_eq_iff.mp hcb
    exact h1 (this ▸ hca)
  | gt =>
    have hbc : cmpChars b.data c.data = .lt := by
      rw [cmpChars_swap, hcb]; rfl
    exact h1 (cmpChars_lt_trans hbc hca)

instance pyLeIsTotal : IsTotal String pyLe := ⟨pyLe_total⟩

instance pyLeIsTrans : IsTrans String pyLe := ⟨pyLe_trans⟩

lemma pySorted_perm (l : List String) : List.Perm (pySorted l) l :=
  List.perm_insertionSort pyLe l

lemma pySorted_sorted (l : List String) : (pySorted l).Pairwise pyLe :=
  List.sorted_insertionSort pyLe l

lemma pySorted_eq_of_sorted {l : List String} (h : l.Pairwise pyLe) : pySorted l = l :=
  List.Sorted.insertionSort_eq h

lemma cmpChars_append_left : ∀ (p x y : List Char),
    cmpChars (p ++ x) (p ++ y) = cmpChars x y
  | [], _, _ => rfl
  | a :: p, x, y => by
    rw [List.cons_append, List.cons_append]
    show (if a < a then Ordering.lt
          else if a < a then Ordering.gt else cmpChars (p ++ x) (p ++ y)) = cmpChars x y
    rw [if_neg (lt_irrefl a), if_neg (lt_irrefl a), cmpChars_append_left p x y]

lemma cmpChars_append_of_lt : ∀ {x y : List Char} (s t : List Char),
    x.length = y.length → cmpChars x y = .lt → cmpChars (x ++ s) (y ++ t) = .lt
  | [], [], _, _ => by intro _ h; simp [cmpChars] at h
  | [], _ :: _, _, _ => by intro h; simp at h
  | _ :: _, [], _, _ => by intro h; simp at h
  | a :: as, b :: bs, s, t => by
    intro hlen h
    have h' : (if a < b then Ordering.lt
        else if b < a then Ordering.gt else cmpChars as bs) = .lt := h
    rw [List.cons_append, List.cons_append]
    show (if a < b then Ordering.lt
          else if b < a then Ordering.gt else cmpChars (as ++ s) (bs ++ t)) = .lt
    by_cases hab : a < b
    · rw [if_pos hab]
    · by_cases hba : b < a
      · rw [if_neg hab, if_pos hba] at h'
        cases h'
      · rw [if_neg hab, if_neg hba] at h'
        rw [if_neg hab, if_neg hba]
        exact cmpChars_append_of_lt s t (Nat.succ_injective hlen) h'

/-! ### Lemmas about the filename pattern -/

set_option maxRecDepth 100000 in
lemma pad3_facts : ∀ i, i < 1000 →
    ((pad3 i).data.length = 3 ∧ digitsToNat (pad3 i).data = i ∧
      ∀ c ∈ (pad3 i).data, c.isDigit = true) := by decide

set_option maxRecDepth 100000 in
lemma pad3_adj : ∀ i, i < 999 → strLtb (pad3 i) (pad3 (i + 1)) = true := by decide

lemma pad3_lt {i j : Nat} (hij : i < j) (hj : j ≤ 999) : strLtb (pad3 i) (pad3 j) = true := by
  induction j with
  | zero => cases hij
  | succ k ih =>
    rcases Nat.lt_succ_iff_lt_or_eq.mp hij with hk | hk
    · exact strLtb_trans (ih hk (Nat.le_of_succ_le hj)) (pad3_adj k (Nat.lt_of_succ_le hj))
    · subst hk
      exact pad3_adj i (Nat.lt_of_succ_le hj)

lemma data_mkFilename (dir : String) (i : Nat) (sp fmt : String) :
    (mkFilename dir i sp fmt).data =
      (dir.data ++ ['/']) ++ ((pad3 i).data ++ '_' :: (sp.data ++ '.' :: fmt.data)) := by
  simp [mkFilename, String.data_append]

lemma mkFilename_lt {dir : String} {i j : Nat} (sp sq fmt : String)
    (hij : i < j) (hj : j ≤ 999) :
    strLtb (mkFilename dir i sp fmt) (mkFilename dir j sq fmt) = true := by
  rw [strLtb_iff, data_mkFilename, data_mkFilename, cmpChars_append_left]
  have hlen : ((pad3 i).data).length = ((pad3 j).data).length := by
    rw [(pad3_facts i (by omega)).1, (pad3_facts j (by omega)).1]
  exact cmpChars_append_of_lt _ _ hlen (strLtb_iff.mp (pad3_lt hij hj))

lemma takeWhile_append_stop {p : Char → Bool} :
    ∀ (l1 : List Char) (c0 : Char) (l2 : List Char), (∀ c ∈ l1, p c = true) → p c0 = false →
      ((l1 ++ c0 :: l2).takeWhile p) = l1
  | [], c0, l2 => by intro _ h0; simp [List.takeWhile, h0]
  | c :: l1, c0, l2 => by
    intro hall h0
    rw [List.cons_append, List.takeWhile_cons_of_pos (hall c (List.mem_cons_self c l1))]
    rw [takeWhile_append_stop l1 c0 l2 (fun x hx => hall x (List.mem_cons_of_mem c hx)) h0]

lemma ordKey_mkFilename (dir : String) {i : Nat} (sp fmt : String) (hi : i ≤ 999) :
    ordKey dir (mkFilename dir i sp fmt) = i := by
  have hfacts := pad3_facts i (Nat.lt_succ_of_le hi)
  unfold ordKey
  rw [data_mkFilename]
  have hlen : (dir.data ++ ['/']).length = dir.data.length + 1 := by simp
  rw [← hlen, List.drop_left]
  rw [takeWhile_append_stop _ '_' _ hfacts.2.2 (by decide)]
  exact hfacts.2.1

/-! ### Lemmas about the generator loop -/

lemma processSegment_fst (cfg : GenConfig) (env : GenEnv) (i : Nat) (seg : Seg) :
    (processSegment cfg env i seg).1 = none ∨
      (processSegment cfg env i seg).1 =
        some (mkFilename cfg.output_dir i (pyStrip seg.speaker) cfg.audio_config.format) := by
  unfold processSegment
  dsimp only
  split
  · exact Or.inl rfl
  · split
    · exact Or.inl rfl
    · split
      · split
        · split
          · exact Or.inr rfl
          · exact Or.inl rfl
        · exact Or.inr rfl
      · exact Or.inl rfl

lemma genLoop_fst_eq_map (cfg : GenConfig) (env : GenEnv) :
    ∀ (d : List Seg) (k : Nat),
      (genLoop cfg env k d).1 = (successPairs cfg env k d).map
        (fun p => mkFilename cfg.output_dir p.1 p.2 cfg.audio_config.format)
  | [], _ => rfl
  | seg :: rest, k => by
    rcases processSegment_fst cfg env k seg with h | h
    · simp only [genLoop, successPairs, h]
      exact genLoop_fst_eq_map cfg env rest (k + 1)
    · simp only [genLoop, successPairs, h, List.map_cons]
      rw [genLoop_fst_eq_map cfg env rest (k + 1)]

lemma mem_successPairs_bounds (cfg : GenConfig) (env : GenEnv) :
    ∀ (d : List Seg) (k : Nat) (p : Nat × String),
      p ∈ successPairs cfg env k d → k ≤ p.1 ∧ p.1 < k + d.length
  | [], _, _ => by intro h; cases h
  | seg :: rest, k, p => by
    intro hp
    rw [successPairs] at hp
    have step : p ∈ successPairs cfg env (k + 1) rest → k ≤ p.1 ∧ p.1 < k + (seg :: rest).length := by
      intro h
      have := mem_successPairs_bounds cfg env rest (k + 1) p h
      constructor
      · omega
      · simp only [List.length_cons]
        omega
    rcases hht : (processSegment cfg env k seg).1 with _ | f
    · rw [hht] at hp
      exact step hp
    · rw [hht] at hp
      rcases List.mem_cons.mp hp with h | h
      · subst h
        simp
      · exact step h

lemma successPairs_pairwise (cfg : GenConfig) (env : GenEnv) :
    ∀ (d : List Seg) (k : Nat),
      (successPairs cfg env k d).Pairwise (fun p q => p.1 < q.1)
  | [], _ => List.Pairwise.nil
  | seg :: rest, k => by
    rw [successPairs]
    rcases hht : (processSegment cfg env k seg).1 with _ | f
    · exact successPairs_pairwise cfg env rest (k + 1)
    · refine List.Pairwise.cons ?_ (successPairs_pairwise cfg env rest (k + 1))
      intro q hq
      have := (mem_successPairs_bounds cfg env rest (k + 1) q hq).1
      omega

lemma mem_successPairs_get (cfg : GenConfig) (env : GenEnv) :
    ∀ (d : List Seg) (k : Nat) (p : Nat × String), p ∈ successPairs cfg env k d →
      ∃ seg, d.get? (p.1 - k) = some seg ∧ p.2 = pyStrip seg.speaker ∧
        (processSegment cfg env p.1 seg).1 =
          some (mkFilename cfg.output_dir p.1 p.2 cfg.audio_config.format)
  | [], _, _ => by intro h; cases h
  | seg :: rest, k, p => by
    intro hp
    rw [successPairs] at hp
    have step : p ∈ successPairs cfg env (k + 1) rest →
        ∃ sg, (seg :: rest : List Seg).get? (p.1 - k) = some sg ∧
          p.2 = pyStrip sg.speaker ∧
          (processSegment cfg env p.1 sg).1 =
            some (mkFilename cfg.output_dir p.1 p.2 cfg.audio_config.format) := by
      intro h
      obtain ⟨seg', hget, hsp, hps⟩ :=
        mem_successPairs_get cfg env rest (k + 1) p h
      have hk1 : k + 1 ≤ p.1 := (mem_successPairs_bounds cfg env rest (k + 1) p h).1
      refine ⟨seg', ?_, hsp, hps⟩
      have heq : p.1 - k = (p.1 - (k + 1)) + 1 := by omega
      rw [heq]
      simpa using hget
    rcases hht : (processSegment cfg env k seg).1 with _ | f
    · rw [hht] at hp
      exact step hp
    · rw [hht] at hp
      rcases List.mem_cons.mp hp with h | h
      · subst h
        refine ⟨seg, by simp, rfl, ?_⟩
        rcases processSegment_fst cfg env k seg with h' | h'
        · rw [h'] at hht; cases hht
        · exact h'
      · exact step h

lemma mem_genLoop_fst (cfg : GenConfig) (env : GenEnv) :
    ∀ (d : List Seg) (k : Nat) (f : String),
      (f ∈ (genLoop cfg env k d).1 ↔
        ∃ i seg, d.get? i = some seg ∧ (processSegment cfg env (k + i) seg).1 = some f)
  | [], k, f => by
    constructor
    · intro h; cases h
    · rintro ⟨i, seg, hget, _⟩
      rw [List.get?_eq_none.mpr (by simp)] at hget
      cases hget
  | seg :: rest, k, f => by
    rw [genLoop]
    have ihrest := mem_genLoop_fst cfg env rest (k + 1) f
    constructor
    · intro h
      rcases hht : (processSegment cfg env k seg).1 with _ | g
      · rw [hht] at h
        dsimp only at h
        obtain ⟨i, seg', hget, hps⟩ := ihrest.mp h
        exact ⟨i + 1, seg', by simpa using hget, by rw [show k + (i + 1) = k + 1 + i by omega]; exact hps⟩
      · rw [hht] at h
        dsimp only at h
        rcases List.mem_cons.mp h with h' | h'
        · subst h'
          exact ⟨0, seg, by simp, by rw [Nat.add_zero]; exact hht⟩
        · obtain ⟨i, seg', hget, hps⟩ := ihrest.mp h'
          exact ⟨i + 1, seg', by simpa using hget,
            by rw [show k + (i + 1) = k + 1 + i by omega]; exact hps⟩
    · rintro ⟨i, seg', hget, hps⟩
      cases i with
      | zero =>
        simp only [List.get?_cons_zero, Option.some.injEq] at hget
        subst hget
        rw [Nat.add_zero] at hps
        rw [hps]
        exact List.mem_cons_self f _
      | succ n =>
        simp only [List.get?_cons_succ] at hget
        have hmem : f ∈ (genLoop cfg env (k + 1) rest).1 :=
          ihrest.mpr ⟨n, seg', hget, by rw [show k + 1 + n = k + (n + 1) by omega]; exact hps⟩
        rcases hht : (processSegment cfg env k seg).1 with _ | g
        · exact hmem
        · exact List.mem_cons_of_mem g hmem

/-! ### Lemmas about the mixer -/

lemma validateLoop_none_iff (env : MixEnv) : ∀ (files : List String),
    validateLoop env files = none ↔
      ∃ af ∈ files, env.fsExists (resolveSegmentPath env af) = false
  | [] => by simp [validateLoop]
  | af :: rest => by
    rw [validateLoop]
    by_cases h : env.fsExists (resolveSegmentPath env af) = true
    · rw [if_pos h]
      constructor
      · intro hmap
        have : validateLoop env rest = none := by
          cases hv : validateLoop env rest with
          | none => rfl
          | some v => rw [hv] at hmap; cases hmap
        obtain ⟨g, hg, hgf⟩ := (validateLoop_none_iff env rest).mp this
        exact ⟨g, List.mem_cons_of_mem af hg, hgf⟩
      · rintro ⟨g, hg, hgf⟩
        rcases List.mem_cons.mp hg with rfl | hg'
        · rw [h] at hgf; cases hgf
        · rw [(validateLoop_none_iff env rest).mpr ⟨g, hg', hgf⟩]
          rfl
    · rw [if_neg h]
      constructor
      · intro _
        exact ⟨af, List.mem_cons_self af rest, Bool.not_eq_true _ ▸ h⟩
      · intro _
        rfl

lemma validateLoop_all_ok (env : MixEnv) : ∀ (files : List String),
    (∀ f ∈ files, env.fsExists (resolveSegmentPath env f) = true) →
      validateLoop env files = some (files.map (resolveSegmentPath env))
  | [] => by intro _; rfl
  | af :: rest => by
    intro hall
    rw [validateLoop, if_pos (hall af (List.mem_cons_self af rest))]
    rw [validateLoop_all_ok env rest (fun f hf => hall f (List.mem_cons_of_mem af hf))]
    rfl

lemma mixLoop_all_ok (env : MixEnv) (cf : Nat) (hdec : ∀ p, env.decodeOk p = true) :
    ∀ (files : List String) (acc : AExpr),
      mixLoop env cf acc files =
        (some (files.foldl
          (fun m f => .appendCrossfade m (.concat (.silent 200) (.fromFile f)) cf) acc),
         files.map FsEvent.decodeFile)
  | [], acc => rfl
  | f :: rest, acc => by
    rw [mixLoop, if_pos (hdec f)]
    rw [mixLoop_all_ok env cf hdec rest]
    rfl

lemma exportEvents_mixLoop (env : MixEnv) (cf : Nat) : ∀ (files : List String) (acc : AExpr),
    exportEvents (mixLoop env cf acc files).2 = []
  | [], _ => rfl
  | f :: rest, acc => by
    rw [mixLoop]
    by_cases h : env.decodeOk f = true
    · rw [if_pos h]
      show exportEvents (FsEvent.decodeFile f :: _) = []
      rw [exportEvents, List.filterMap_cons]
      exact exportEvents_mixLoop env cf rest _
    · rw [if_neg h]
      rfl

lemma append_ne_empty_right (s t : String) (ht : t ≠ "") : s ++ t ≠ "" := by
  intro h
  apply ht
  have hd := congrArg String.data h
  rw [String.data_append] at hd
  exact String.ext (List.append_eq_nil.mp hd).2

lemma joinPath_ne_empty (a : String) : joinPath a "podcast_final.mp3" ≠ "" := by
  unfold joinPath
  rw [if_neg (by decide : ¬(isAbs "podcast_final.mp3" = true))]
  by_cases ha : a = ""
  · rw [if_pos ha]
    decide
  · rw [if_neg ha]
    by_cases hsl : a.data.getLast? = some '/'
    · rw [if_pos hsl]
      exact append_ne_empty_right a _ (by decide)
    · rw [if_neg hsl]
      exact append_ne_empty_right (a ++ "/") _ (by decide)

lemma isAbs_append_left {a : String} (t : String) (ha : a ≠ "") : isAbs (a ++ t) = isAbs a := by
  unfold isAbs
  rw [String.data_append]
  cases hd : a.data with
  | nil => exact absurd (String.ext hd) ha
  | cons c l => rfl

lemma isAbs_joinPath (a : String) : isAbs (joinPath a "podcast_final.mp3") = isAbs a := by
  unfold joinPath
  rw [if_neg (by decide : ¬(isAbs "podcast_final.mp3" = true))]
  by_cases ha : a = ""
  · rw [if_pos ha, ha]
    decide
  · rw [if_neg ha]
    by_cases hsl : a.data.getLast? = some '/'
    · rw [if_pos hsl]
      exact isAbs_append_left _ ha
    · rw [if_neg hsl]
      rw [isAbs_append_left _ (append_ne_empty_right a "/" (by decide))]
      exact isAbs_append_left _ ha

/-! ### Skip and split lemmas for the generator -/

lemma processSegment_skip (cfg : GenConfig) (env : GenEnv) (i : Nat) (seg : Seg)
    (h : pyStrip seg.speaker = "" ∨ pyStrip seg.text = "" ∨
      lookupVoice cfg.voice_configs (pyStrip seg.speaker) = none) :
    processSegment cfg env i seg = (none, []) := by
  unfold processSegment
  dsimp only
  rcases h with h | h | h
  · rw [if_pos (Or.inl h)]
  · rw [if_pos (Or.inr h)]
  · by_cases h2 : pyStrip seg.speaker = "" ∨ pyStrip seg.text = ""
    · rw [if_pos h2]
    · rw [if_neg h2, h]

lemma genLoop_append (cfg : GenConfig) (env : GenEnv) : ∀ (pre rest : List Seg) (k : Nat),
    genLoop cfg env k (pre ++ rest) =
      ((genLoop cfg env k pre).1 ++ (genLoop cfg env (k + pre.length) rest).1,
       (genLoop cfg env k pre).2 ++ (genLoop cfg env (k + pre.length) rest).2)
  | [], rest, k => by simp [genLoop]
  | seg :: pre, rest, k => by
    have ih := genLoop_append cfg env pre rest (k + 1)
    have hidx : k + (seg :: pre).length = k + 1 + pre.length := by
      simp only [List.length_cons]
      omega
    rw [List.cons_append, hidx]
    cases hs : (processSegment cfg env k seg).1 with
    | none =>
      simp only [genLoop, hs, ih]
      simp [List.append_assoc]
    | some f =>
      simp only [genLoop, hs, ih]
      simp [List.append_assoc]

/-! ### Lemmas for dialogue elements without a dict interface -/

lemma genLoopE_map_dict (cfg : GenConfig) (env : GenEnv) : ∀ (d : List Seg) (k : Nat),
    genLoopE cfg env k (d.map Seg.toElem) = .ok (genLoop cfg env k d).1
  | [], _ => rfl
  | seg :: rest, k => by
    obtain ⟨sp, tx⟩ := seg
    have ih := genLoopE_map_dict cfg env rest (k + 1)
    simp only [List.map_cons, genLoopE, Seg.toElem, segGet, genLoop]
    cases hs : (processSegment cfg env k ⟨sp, tx⟩).1 with
    | none => simp only [hs, ih]
    | some f => simp only [hs, ih]

lemma genLoopE_model_err (cfg : GenConfig) (env : GenEnv) :
    ∀ (pre : List Seg) (k : Nat) (sp tx : String) (suf : List DialogueElem),
      genLoopE cfg env k (pre.map Seg.toElem ++ .modelElem sp tx :: suf) = .error ()
  | [], _, _, _, _ => rfl
  | seg :: pre, k, sp, tx, suf => by
    obtain ⟨sp0, tx0⟩ := seg
    have ih := genLoopE_model_err cfg env pre (k + 1) sp tx suf
    simp only [List.map_cons, List.cons_append, genLoopE, Seg.toElem, segGet]
    cases hs : (processSegment cfg env k ⟨sp0, tx0⟩).1 with
    | none => simp only [hs, List.append_eq, ih]
    | some f => simp only [hs, List.append_eq, ih]

/-! ### Concrete fixtures used by witnesses and counterexamples -/

/-- A generator configuration with a single registered speaker `A`,
default audio configuration, and output directory `out`. -/
def cfgA : GenConfig :=
  { voice_configs := [("A", { voice_id := "voiceA", config := {} })]
    audio_config := {}
    output_dir := "out" }

/-- A generator configuration with speakers `A` and `B` registered. -/
def cfgAB : GenConfig :=
  { voice_configs := [("A", { voice_id := "voiceA", config := {} }),
                      ("B", { voice_id := "voiceB", config := {} })]
    audio_config := {}
    output_dir := "out" }

/-- An environment where every synthesis and normalization succeeds. -/
def envAll : GenEnv := { synthOk := fun _ => true, normOk := fun _ => true }

/-- An environment where synthesis fails exactly on line 1. -/
def envFail1 : GenEnv := { synthOk := fun i => decide (i ≠ 1), normOk := fun _ => true }

/-- The mixer configuration of the source defaults: output directory
`output/podcast` (a relative path). -/
def mixCfg : MixConfig := { audio_config := {}, output_dir := "output/podcast" }

/-- A mixer environment where every file exists and every operation
succeeds; the working directory is `/w`. -/
def mixEnvOk : MixEnv :=
  { cwd := "/w", fsExists := fun _ => true, decodeOk := fun _ => true, exportOk := true }

/-- A mixer environment where the resolved path `/w/b.mp3` does not exist. -/
def mixEnvMissing : MixEnv :=
  { cwd := "/w", fsExists := fun p => decide (p ≠ "/w/b.mp3"),
    decodeOk := fun _ => true, exportOk := true }

/-! ### Claim theorems for the mixer -/

/-- The paths of the export events of a trace. -/
def exportPaths (evs : List FsEvent) : List String := (exportEvents evs).map Prod.fst

lemma exportEvents_append (l1 l2 : List FsEvent) :
    exportEvents (l1 ++ l2) = exportEvents l1 ++ exportEvents l2 := by
  unfold exportEvents
  exact List.filterMap_append l1 l2 _

/-- C3: if any input file of `PodcastMixer._run` does not exist after
resolving relative paths against the working directory, the mix returns the
empty string, the only filesystem effect is the `makedirs` call, no file is
decoded, and in particular `podcast_final.mp3` is neither created nor
overwritten. -/
theorem c3_missing_input_aborts (cfg : MixConfig) (env : MixEnv) (files : List String) (cf : Nat)
    (h : ∃ af ∈ files, env.fsExists (resolveSegmentPath env af) = false) :
    (mixRun cfg env files cf).1 = "" ∧
    (mixRun cfg env files cf).2 = [FsEvent.mkdir cfg.output_dir] ∧
    (∀ e ∈ (mixRun cfg env files cf).2, isDecodeEvent e = false ∧
      touchesFile e (joinPath cfg.output_dir "podcast_final.mp3") = false) := by
  obtain ⟨af, haf, hmiss⟩ := h
  have hne : files.isEmpty = false := by
    cases files with
    | nil => cases haf
    | cons a l => rfl
  have hval : validateLoop env files = none :=
    (validateLoop_none_iff env files).mpr ⟨af, haf, hmiss⟩
  have hrun : mixRun cfg env files cf = ("", [FsEvent.mkdir cfg.output_dir]) := by
    simp [mixRun, hne, hval]
  rw [hrun]
  refine ⟨rfl, rfl, ?_⟩
  intro e he
  rcases List.mem_singleton.mp he with rfl
  exact ⟨rfl, rfl⟩

/-- C3 witness: the concrete instance where `b.mp3` resolves to the missing
path `/w/b.mp3`. -/
theorem c3_witness :
    (∃ af ∈ ["a.mp3", "b.mp3"],
      mixEnvMissing.fsExists (resolveSegmentPath mixEnvMissing af) = false) ∧
    ((mixRun mixCfg mixEnvMissing ["a.mp3", "b.mp3"] 50).1 = "" ∧
      (mixRun mixCfg mixEnvMissing ["a.mp3", "b.mp3"] 50).2 = [FsEvent.mkdir mixCfg.output_dir] ∧
      (∀ e ∈ (mixRun mixCfg mixEnvMissing ["a.mp3", "b.mp3"] 50).2, isDecodeEvent e = false ∧
        touchesFile e (joinPath mixCfg.output_dir "podcast_final.mp3") = false)) :=
  ⟨by decide, c3_missing_input_aborts mixCfg mixEnvMissing ["a.mp3", "b.mp3"] 50 (by decide)⟩

/-- C6: the mixer never propagates an error: for every configuration,
environment and input the call returns either the empty string or the
non-empty fixed output path. -/
theorem c6_never_raises (cfg : MixConfig) (env : MixEnv) (files : List String) (cf : Nat) :
    (mixRun cfg env files cf).1 = "" ∨
      ((mixRun cfg env files cf).1 = joinPath cfg.output_dir "podcast_final.mp3" ∧
        (mixRun cfg env files cf).1 ≠ "") := by
  unfold mixRun
  dsimp only
  split
  · exact Or.inl rfl
  · split
    · exact Or.inl rfl
    · split
      · exact Or.inl rfl
      · split
        · split
          · split
            · exact Or.inr ⟨rfl, joinPath_ne_empty cfg.output_dir⟩
            · exact Or.inl rfl
          · exact Or.inl rfl
        · exact Or.inl rfl

/-- C10: the mixer creates its output directory before validating inputs:
with an empty input list it performs no filesystem effect at all, and with a
non-empty input list its first filesystem effect is always the `makedirs`
call, whether or not the mix subsequently fails. -/
theorem c10_mkdir_first (cfg : MixConfig) (env : MixEnv) (files : List String) (cf : Nat) :
    (files = [] → mixRun cfg env files cf = ("", [])) ∧
    (files ≠ [] →
      ((mixRun cfg env files cf).2).head? = some (FsEvent.mkdir cfg.output_dir)) := by
  constructor
  · intro h
    subst h
    rfl
  · intro h
    have hne : files.isEmpty = false := by
      cases files with
      | nil => exact absurd rfl h
      | cons a l => rfl
    unfold mixRun
    rw [hne]
    dsimp only
    repeat' split
    all_goals first
      | rfl
      | (rename_i hcontra; cases hcontra)

/-- C10 witness: a singleton input in the all-missing-nothing environment. -/
theorem c10_witness :
    ((["a.mp3"] : List String) ≠ []) ∧
    ((mixRun mixCfg mixEnvOk ["a.mp3"] 50).2).head? = some (FsEvent.mkdir mixCfg.output_dir) :=
  ⟨by decide, (c10_mkdir_first mixCfg mixEnvOk ["a.mp3"] 50).2 (by decide)⟩

lemma exportEvents_mkdir_cons (d : String) (l : List FsEvent) :
    exportEvents (FsEvent.mkdir d :: l) = exportEvents l := rfl

lemma exportEvents_decode_cons (p : String) (l : List FsEvent) :
    exportEvents (FsEvent.decodeFile p :: l) = exportEvents l := rfl

lemma exportEvents_single_export (p : String) (a : AExpr) (f : String)
    (b : Option String) (prm : List String) :
    exportEvents [FsEvent.exportAudio p a f b prm] = [(p, a)] := rfl

lemma exportEvents_map_decode : ∀ l : List String,
    exportEvents (l.map FsEvent.decodeFile) = []
  | [] => rfl
  | p :: l => by
    rw [List.map_cons, exportEvents_decode_cons]
    exact exportEvents_map_decode l

lemma mixRun_cases (cfg : MixConfig) (env : MixEnv) (files : List String) (cf : Nat) :
    ((mixRun cfg env files cf).1 = "" ∧ exportPaths (mixRun cfg env files cf).2 = []) ∨
    ((mixRun cfg env files cf).1 = joinPath cfg.output_dir "podcast_final.mp3" ∧
      exportPaths (mixRun cfg env files cf).2 = [(mixRun cfg env files cf).1]) := by
  unfold mixRun
  dsimp only
  repeat' split
  all_goals first
    | exact Or.inl ⟨rfl, rfl⟩
    | (refine Or.inr ⟨rfl, ?_⟩
       simp [exportPaths, exportEvents_append, exportEvents_mixLoop,
         exportEvents_mkdir_cons, exportEvents_decode_cons, exportEvents_single_export])
    | (refine Or.inl ⟨rfl, ?_⟩
       simp [exportPaths, exportEvents_append, exportEvents_mixLoop,
         exportEvents_mkdir_cons, exportEvents_decode_cons])

/-- C5 as stated in the claim: on success the mixer returns an absolute path
to the single exported file; on failure the empty string with no export. -/
def c5ClaimProp (cfg : MixConfig) (env : MixEnv) (files : List String) (cf : Nat) : Prop :=
  ((mixRun cfg env files cf).1 ≠ "" →
    isAbs (mixRun cfg env files cf).1 = true ∧
    (mixRun cfg env files cf).1 = joinPath cfg.output_dir "podcast_final.mp3" ∧
    exportPaths (mixRun cfg env files cf).2 = [(mixRun cfg env files cf).1]) ∧
  ((mixRun cfg env files cf).1 = "" → exportPaths (mixRun cfg env files cf).2 = [])

/-- C5 counterexample: with the source's default output directory
`output/podcast` (a relative path) a successful mix returns
`output/podcast/podcast_final.mp3`, which is not an absolute path. -/
theorem c5_counterexample : ¬ c5ClaimProp mixCfg mixEnvOk ["a.mp3"] 50 := by
  unfold c5ClaimProp
  decide

/-- C5 amended: on success the mixer returns the path
`{output_dir}/podcast_final.mp3` — absolute exactly when the configured
output directory is absolute — and performs exactly one export, to that path;
on any failure it returns the empty string and records no export. -/
theorem c5_amended_result (cfg : MixConfig) (env : MixEnv) (files : List String) (cf : Nat) :
    ((mixRun cfg env files cf).1 ≠ "" →
      (mixRun cfg env files cf).1 = joinPath cfg.output_dir "podcast_final.mp3" ∧
      isAbs (mixRun cfg env files cf).1 = isAbs cfg.output_dir ∧
      exportPaths (mixRun cfg env files cf).2 = [(mixRun cfg env files cf).1]) ∧
    ((mixRun cfg env files cf).1 = "" → exportPaths (mixRun cfg env files cf).2 = []) := by
  rcases mixRun_cases cfg env files cf with ⟨h1, h2⟩ | ⟨h1, h2⟩
  · exact ⟨fun hne => absurd h1 hne, fun _ => h2⟩
  · constructor
    · intro _
      refine ⟨h1, ?_, h2⟩
      rw [h1]
      exact isAbs_joinPath cfg.output_dir
    · intro hempty
      rw [h1] at hempty
      exact absurd hempty (joinPath_ne_empty cfg.output_dir)

/-- C5 witness: the amended statement at a concrete successful mix, whose
result evaluates to the relative path `output/podcast/podcast_final.mp3`. -/
theorem c5_amended_witness :
    (((mixRun mixCfg mixEnvOk ["a.mp3"] 50).1 ≠ "" →
      (mixRun mixCfg mixEnvOk ["a.mp3"] 50).1 = joinPath mixCfg.output_dir "podcast_final.mp3" ∧
      isAbs (mixRun mixCfg mixEnvOk ["a.mp3"] 50).1 = isAbs mixCfg.output_dir ∧
      exportPaths (mixRun mixCfg mixEnvOk ["a.mp3"] 50).2 =
        [(mixRun mixCfg mixEnvOk ["a.mp3"] 50).1]) ∧
    ((mixRun mixCfg mixEnvOk ["a.mp3"] 50).1 = "" →
      exportPaths (mixRun mixCfg mixEnvOk ["a.mp3"] 50).2 = [])) ∧
    (mixRun mixCfg mixEnvOk ["a.mp3"] 50).1 = "output/podcast/podcast_final.mp3" :=
  ⟨c5_amended_result mixCfg mixEnvOk ["a.mp3"] 50, by decide⟩

/-- C2: on a fully successful mix, the exported track is exactly the
spec's algorithm: the first decoded file as accumulator, every subsequent
file decoded, prefixed with 200 ms of silence and crossfade-appended with the
given crossfade duration. -/
theorem c2_mix_algorithm (cfg : MixConfig) (env : MixEnv) (f0 : String) (rest : List String)
    (cf : Nat)
    (hex : ∀ f ∈ f0 :: rest, env.fsExists (resolveSegmentPath env f) = true)
    (hdec : ∀ p, env.decodeOk p = true)
    (hexp : env.exportOk = true) :
    specMixTrack ((f0 :: rest).map (resolveSegmentPath env)) cf =
      some ((rest.map (resolveSegmentPath env)).foldl
        (fun acc g => AExpr.appendCrossfade acc (.concat (.silent 200) (.fromFile g)) cf)
        (AExpr.fromFile (resolveSegmentPath env f0))) ∧
    exportEvents (mixRun cfg env (f0 :: rest) cf).2 =
      [(joinPath cfg.output_dir "podcast_final.mp3",
        (rest.map (resolveSegmentPath env)).foldl
          (fun acc g => AExpr.appendCrossfade acc (.concat (.silent 200) (.fromFile g)) cf)
          (AExpr.fromFile (resolveSegmentPath env f0)))] ∧
    (mixRun cfg env (f0 :: rest) cf).1 = joinPath cfg.output_dir "podcast_final.mp3" := by
  have hval := validateLoop_all_ok env (f0 :: rest) hex
  rw [List.map_cons] at hval
  have hloop := mixLoop_all_ok env cf hdec (rest.map (resolveSegmentPath env))
    (AExpr.fromFile (resolveSegmentPath env f0))
  have hrun : mixRun cfg env (f0 :: rest) cf =
      (joinPath cfg.output_dir "podcast_final.mp3",
        FsEvent.mkdir cfg.output_dir
          :: FsEvent.decodeFile (resolveSegmentPath env f0)
          :: (rest.map (resolveSegmentPath env)).map FsEvent.decodeFile ++
            [FsEvent.exportAudio (joinPath cfg.output_dir "podcast_final.mp3")
              ((rest.map (resolveSegmentPath env)).foldl
                (fun acc g => AExpr.appendCrossfade acc (.concat (.silent 200) (.fromFile g)) cf)
                (AExpr.fromFile (resolveSegmentPath env f0)))
              "mp3" none ["-q:a", "0", "-ar", "48000"]]) := by
    unfold mixRun
    rw [if_neg (by simp : ¬((f0 :: rest).isEmpty = true))]
    rw [hval]
    dsimp only
    rw [if_pos (hdec (resolveSegmentPath env f0)), hloop]
    dsimp only
    rw [if_pos hexp]
  refine ⟨rfl, ?_, ?_⟩
  · rw [hrun]
    dsimp only
    rw [exportEvents_append, exportEvents_mkdir_cons, exportEvents_decode_cons,
      exportEvents_map_decode, exportEvents_single_export]
    rfl
  · rw [hrun]

/-- C2 witness: a concrete two-file mix producing the expected single export
with the silence-then-crossfade expression. -/
theorem c2_witness :
    (∀ f ∈ ("a.mp3" :: ["b.mp3"]), mixEnvOk.fsExists (resolveSegmentPath mixEnvOk f) = true) ∧
    (specMixTrack (("a.mp3" :: ["b.mp3"]).map (resolveSegmentPath mixEnvOk)) 50 =
        some ((["b.mp3"].map (resolveSegmentPath mixEnvOk)).foldl
          (fun acc g => AExpr.appendCrossfade acc (.concat (.silent 200) (.fromFile g)) 50)
          (AExpr.fromFile (resolveSegmentPath mixEnvOk "a.mp3"))) ∧
      exportEvents (mixRun mixCfg mixEnvOk ("a.mp3" :: ["b.mp3"]) 50).2 =
        [(joinPath mixCfg.output_dir "podcast_final.mp3",
          (["b.mp3"].map (resolveSegmentPath mixEnvOk)).foldl
            (fun acc g => AExpr.appendCrossfade acc (.concat (.silent 200) (.fromFile g)) 50)
            (AExpr.fromFile (resolveSegmentPath mixEnvOk "a.mp3")))] ∧
      (mixRun mixCfg mixEnvOk ("a.mp3" :: ["b.mp3"]) 50).1 =
        joinPath mixCfg.output_dir "podcast_final.mp3") :=
  ⟨by decide, c2_mix_algorithm mixCfg mixEnvOk "a.mp3" ["b.mp3"] 50 (by decide) (fun _p => rfl) rfl⟩

/-! ### Claim theorems for the generator -/

/-- C4: the per-line failure handling of `PodcastAudioGenerator._run`: the
returned list contains exactly the paths of the lines whose own processing
succeeded, independently of failures on any other line — a failing line is
skipped and never aborts the batch — and if every line fails or is skipped
the returned list is empty. -/
theorem c4_per_line_isolation (cfg : GenConfig) (env : GenEnv) (dialogue : List Seg) :
    (∀ f, f ∈ runGen cfg env dialogue ↔
      ∃ i seg, dialogue.get? i = some seg ∧ (processSegment cfg env i seg).1 = some f) ∧
    ((∀ i seg, dialogue.get? i = some seg → (processSegment cfg env i seg).1 = none) →
      runGen cfg env dialogue = []) := by
  have hmem : ∀ f, f ∈ runGen cfg env dialogue ↔
      ∃ i seg, dialogue.get? i = some seg ∧ (processSegment cfg env i seg).1 = some f := by
    intro f
    rw [runGen, (pySorted_perm _).mem_iff, mem_genLoop_fst cfg env dialogue 0 f]
    simp only [Nat.zero_add]
  refine ⟨hmem, ?_⟩
  intro hall
  rw [List.eq_nil_iff_forall_not_mem]
  intro f hf
  obtain ⟨i, seg, hget, hps⟩ := (hmem f).mp hf
  rw [hall i seg hget] at hps
  cases hps

/-- C4 witness: the spec's example scenario — three lines, line 1 failing
synthesis, giving exactly the files of lines 0 and 2. -/
theorem c4_witness :
    ((∀ f, f ∈ runGen cfgAB envFail1 [⟨"A", "Hi"⟩, ⟨"B", "Hello"⟩, ⟨"A", "Bye"⟩] ↔
      ∃ i seg, ([⟨"A", "Hi"⟩, ⟨"B", "Hello"⟩, ⟨"A", "Bye"⟩] : List Seg).get? i = some seg ∧
        (processSegment cfgAB envFail1 i seg).1 = some f) ∧
    ((∀ i seg, ([⟨"A", "Hi"⟩, ⟨"B", "Hello"⟩, ⟨"A", "Bye"⟩] : List Seg).get? i = some seg →
        (processSegment cfgAB envFail1 i seg).1 = none) →
      runGen cfgAB envFail1 [⟨"A", "Hi"⟩, ⟨"B", "Hello"⟩, ⟨"A", "Bye"⟩] = [])) ∧
    runGen cfgAB envFail1 [⟨"A", "Hi"⟩, ⟨"B", "Hello"⟩, ⟨"A", "Bye"⟩] =
      ["out/000_A.mp3", "out/002_A.mp3"] :=
  ⟨c4_per_line_isolation cfgAB envFail1 [⟨"A", "Hi"⟩, ⟨"B", "Hello"⟩, ⟨"A", "Bye"⟩], by decide⟩

/-- C7: a line whose trimmed speaker or text is empty, or whose trimmed
speaker has no registered voice, produces no result and no filesystem event,
and the remaining lines are processed exactly as they would be otherwise,
keeping their original indices. -/
theorem c7_skipped_lines (cfg : GenConfig) (env : GenEnv) (pre suf : List Seg) (seg : Seg)
    (h : pyStrip seg.speaker = "" ∨ pyStrip seg.text = "" ∨
      lookupVoice cfg.voice_configs (pyStrip seg.speaker) = none) :
    processSegment cfg env pre.length seg = (none, []) ∧
    runGen cfg env (pre ++ seg :: suf) =
      pySorted ((genLoop cfg env 0 pre).1 ++ (genLoop cfg env (pre.length + 1) suf).1) ∧
    runGenEvents cfg env (pre ++ seg :: suf) =
      FsEvent.mkdir cfg.output_dir ::
        ((genLoop cfg env 0 pre).2 ++ (genLoop cfg env (pre.length + 1) suf).2) := by
  have hskip : ∀ i, processSegment cfg env i seg = (none, []) :=
    fun i => processSegment_skip cfg env i seg h
  have hsplit := genLoop_append cfg env pre (seg :: suf) 0
  rw [Nat.zero_add] at hsplit
  have hmid : genLoop cfg env pre.length (seg :: suf) =
      genLoop cfg env (pre.length + 1) suf := by
    simp [genLoop, hskip pre.length]
  rw [hmid] at hsplit
  exact ⟨hskip pre.length, by rw [runGen, hsplit], by rw [runGenEvents, hsplit]⟩

/-- C7 witness: a three-line dialogue whose middle line has a
whitespace-only speaker. -/
theorem c7_witness :
    (pyStrip (" " : String) = "" ∨ pyStrip ("x" : String) = "" ∨
      lookupVoice cfgA.voice_configs (pyStrip " ") = none) ∧
    (processSegment cfgA envAll ([⟨"A", "hi"⟩] : List Seg).length ⟨" ", "x"⟩ = (none, []) ∧
      runGen cfgA envAll ([⟨"A", "hi"⟩] ++ ⟨" ", "x"⟩ :: [⟨"A", "yo"⟩]) =
        pySorted ((genLoop cfgA envAll 0 [⟨"A", "hi"⟩]).1 ++
          (genLoop cfgA envAll (([⟨"A", "hi"⟩] : List Seg).length + 1) [⟨"A", "yo"⟩]).1) ∧
      runGenEvents cfgA envAll ([⟨"A", "hi"⟩] ++ ⟨" ", "x"⟩ :: [⟨"A", "yo"⟩]) =
        FsEvent.mkdir cfgA.output_dir ::
          ((genLoop cfgA envAll 0 [⟨"A", "hi"⟩]).2 ++
            (genLoop cfgA envAll (([⟨"A", "hi"⟩] : List Seg).length + 1) [⟨"A", "yo"⟩]).2)) :=
  ⟨by decide, c7_skipped_lines cfgA envAll [⟨"A", "hi"⟩] [⟨"A", "yo"⟩] ⟨" ", "x"⟩ (by decide)⟩

/-- C8: when the normalize flag is set and the line succeeds, the events of
one line are exactly: write the synthesized bytes, re-open the written file,
and re-export over the same path the decoded audio after loudness
normalization plus a fixed additive 4 dB gain, using the configured format,
bitrate and sample rate; with the flag off, the write is the only event. -/
theorem c8_normalize_pass (cfg : GenConfig) (env : GenEnv) (i : Nat) (seg : Seg)
    (hsp : ¬ pyStrip seg.speaker = "") (htx : ¬ pyStrip seg.text = "")
    (hvc : lookupVoice cfg.voice_configs (pyStrip seg.speaker) ≠ none)
    (hsynth : env.synthOk i = true) :
    (cfg.audio_config.normalize = true → env.normOk i = true →
      processSegment cfg env i seg =
        (some (mkFilename cfg.output_dir i (pyStrip seg.speaker) cfg.audio_config.format),
         [FsEvent.writeBytes
            (mkFilename cfg.output_dir i (pyStrip seg.speaker) cfg.audio_config.format),
          FsEvent.decodeFile
            (mkFilename cfg.output_dir i (pyStrip seg.speaker) cfg.audio_config.format),
          FsEvent.exportAudio
            (mkFilename cfg.output_dir i (pyStrip seg.speaker) cfg.audio_config.format)
            (AExpr.gainDb (AExpr.normalize (AExpr.fromFile
              (mkFilename cfg.output_dir i (pyStrip seg.speaker) cfg.audio_config.format))) 4)
            cfg.audio_config.format (some cfg.audio_config.bitrate)
            ["-ar", Nat.repr cfg.audio_config.sample_rate]])) ∧
    (cfg.audio_config.normalize = false →
      processSegment cfg env i seg =
        (some (mkFilename cfg.output_dir i (pyStrip seg.speaker) cfg.audio_config.format),
         [FsEvent.writeBytes
            (mkFilename cfg.output_dir i (pyStrip seg.speaker) cfg.audio_config.format)])) := by
  obtain ⟨vc, hvc'⟩ := Option.ne_none_iff_exists'.mp hvc
  constructor
  · intro hn hnorm
    simp [processSegment, hsp, htx, hvc', hsynth, hn, hnorm]
  · intro hn
    simp [processSegment, hsp, htx, hvc', hsynth, hn]

/-- C8 witness: line 0 of a one-speaker configuration with the default
(normalize-enabled) audio configuration. -/
theorem c8_witness :
    (¬ pyStrip ("A" : String) = "") ∧ envAll.synthOk 0 = true ∧
    (cfgA.audio_config.normalize = true → envAll.normOk 0 = true →
      processSegment cfgA envAll 0 ⟨"A", "hi"⟩ =
        (some (mkFilename cfgA.output_dir 0 (pyStrip "A") cfgA.audio_config.format),
         [FsEvent.writeBytes (mkFilename cfgA.output_dir 0 (pyStrip "A") cfgA.audio_config.format),
          FsEvent.decodeFile (mkFilename cfgA.output_dir 0 (pyStrip "A") cfgA.audio_config.format),
          FsEvent.exportAudio (mkFilename cfgA.output_dir 0 (pyStrip "A") cfgA.audio_config.format)
            (AExpr.gainDb (AExpr.normalize (AExpr.fromFile
              (mkFilename cfgA.output_dir 0 (pyStrip "A") cfgA.audio_config.format))) 4)
            cfgA.audio_config.format (some cfgA.audio_config.bitrate)
            ["-ar", Nat.repr cfgA.audio_config.sample_rate]])) :=
  ⟨by decide, rfl,
    (c8_normalize_pass cfgA envAll 0 ⟨"A", "hi"⟩ (by decide) (by decide) (by decide) rfl).1⟩

/-- C9: the `.get` accesses on dialogue elements happen outside the per-line
`try`: over dict elements the run returns the sorted success list, but a
single element without a `.get` method (such as an instance of the declared
`Dialogue` model) makes the whole call raise, aborting the entire batch
rather than skipping one line. -/
theorem c9_dict_precondition (cfg : GenConfig) (env : GenEnv) :
    (∀ d : List Seg, runGenE cfg env (d.map Seg.toElem) = .ok (runGen cfg env d)) ∧
    (∀ (pre : List Seg) (sp tx : String) (suf : List DialogueElem),
      runGenE cfg env (pre.map Seg.toElem ++ DialogueElem.modelElem sp tx :: suf) =
        .error ()) := by
  constructor
  · intro d
    unfold runGenE
    rw [genLoopE_map_dict cfg env d 0]
    rfl
  · intro pre sp tx suf
    unfold runGenE
    rw [genLoopE_model_err cfg env pre 0 sp tx suf]

/-! ### Claim C1: ordering of the generator's result -/

lemma processSegment_cfgA (k : Nat) :
    (processSegment cfgA envAll k ⟨"A", "hi"⟩).1 = some (mkFilename "out" k "A" "mp3") := rfl

lemma mem_genLoop_replicate : ∀ (n k i : Nat), k ≤ i → i < k + n →
    mkFilename "out" i "A" "mp3" ∈ (genLoop cfgA envAll k (List.replicate n ⟨"A", "hi"⟩)).1
  | 0, k, i => by
    intro h1 h2
    omega
  | n + 1, k, i => by
    intro h1 h2
    simp only [List.replicate_succ, genLoop, processSegment_cfgA]
    rcases eq_or_lt_of_le h1 with rfl | hlt
    · exact List.mem_cons_self _ _
    · exact List.mem_cons_of_mem _
        (mem_genLoop_replicate n (k + 1) i hlt (by omega))

/-- C1 as stated in the claim, for a generator configuration and
environment: the returned list is sorted ascending, every path is the
filename pattern of a successful line, and the ordinal prefixes are strictly
increasing and equal to the original input indices of the successful lines
in order. -/
def c1ClaimProp (cfg : GenConfig) (env : GenEnv) (d : List Seg) : Prop :=
  (runGen cfg env d).Pairwise pyLe ∧
  (∀ p ∈ runGen cfg env d, ∃ q ∈ successPairs cfg env 0 d,
    p = mkFilename cfg.output_dir q.1 q.2 cfg.audio_config.format) ∧
  ((runGen cfg env d).map (ordKey cfg.output_dir)).Pairwise (· < ·) ∧
  (runGen cfg env d).map (ordKey cfg.output_dir) = (successPairs cfg env 0 d).map Prod.fst

/-- C1 counterexample: on a dialogue of 1001 all-successful lines the index
1000 is rendered as the four-digit ordinal `1000`, which sorts
lexicographically before `999_...`; the sorted result therefore does not
have strictly increasing ordinal prefixes, refuting the claim as stated for
arbitrary dialogue inputs. -/
theorem c1_counterexample :
    ¬ c1ClaimProp cfgA envAll (List.replicate 1001 ⟨"A", "hi"⟩) := by
  intro hcl
  obtain ⟨hsort, -, hinc, -⟩ := hcl
  have hx : mkFilename "out" 1000 "A" "mp3" ∈
      (genLoop cfgA envAll 0 (List.replicate 1001 (⟨"A", "hi"⟩ : Seg))).1 :=
    mem_genLoop_replicate 1001 0 1000 (by omega) (by omega)
  have hy : mkFilename "out" 999 "A" "mp3" ∈
      (genLoop cfgA envAll 0 (List.replicate 1001 (⟨"A", "hi"⟩ : Seg))).1 :=
    mem_genLoop_replicate 1001 0 999 (by omega) (by omega)
  have hxr : mkFilename "out" 1000 "A" "mp3" ∈
      runGen cfgA envAll (List.replicate 1001 ⟨"A", "hi"⟩) :=
    (pySorted_perm _).mem_iff.mpr hx
  have hyr : mkFilename "out" 999 "A" "mp3" ∈
      runGen cfgA envAll (List.replicate 1001 ⟨"A", "hi"⟩) :=
    (pySorted_perm _).mem_iff.mpr hy
  have hxy : strLtb (mkFilename "out" 1000 "A" "mp3") (mkFilename "out" 999 "A" "mp3") = true :=
    by decide
  have hne : mkFilename "out" 1000 "A" "mp3" ≠ mkFilename "out" 999 "A" "mp3" := by decide
  obtain ⟨ix, hix⟩ := List.mem_iff_get.mp hxr
  obtain ⟨iy, hiy⟩ := List.mem_iff_get.mp hyr
  have hij : ix < iy := by
    rcases lt_trichotomy ix iy with h | h | h
    · exact h
    · exfalso
      apply hne
      rw [← hix, h, hiy]
    · exfalso
      have hle := List.pairwise_iff_get.mp hsort iy ix h
      rw [hix, hiy] at hle
      have hfalse : strLtb (mkFilename "out" 1000 "A" "mp3")
          (mkFilename "out" 999 "A" "mp3") = false := hle
      rw [hfalse] at hxy
      exact Bool.noConfusion hxy
  have hmap := List.pairwise_iff_get.mp (List.pairwise_map.mp hinc) ix iy hij
  rw [hix, hiy] at hmap
  have h1 : ordKey cfgA.output_dir (mkFilename "out" 1000 "A" "mp3") = 1000 := by decide
  have h2 : ordKey cfgA.output_dir (mkFilename "out" 999 "A" "mp3") = 999 := by decide
  rw [h1, h2] at hmap
  omega

/-- C1 amended: for every dialogue of at most 1000 lines (so that every
produced ordinal fits the three-digit zero-padded field), the result of
`PodcastAudioGenerator._run` is exactly the in-order list of pattern-formed
filenames of the successful lines, is strictly sorted ascending, and its
ordinal prefixes are strictly increasing and equal to the original input
indices of the successful lines (skipped lines leave gaps, never
renumbering). -/
theorem c1_amended (cfg : GenConfig) (env : GenEnv) (d : List Seg) (hlen : d.length ≤ 1000) :
    runGen cfg env d = (successPairs cfg env 0 d).map
        (fun p => mkFilename cfg.output_dir p.1 p.2 cfg.audio_config.format) ∧
    (runGen cfg env d).Pairwise (fun a b => strLtb a b = true) ∧
    (runGen cfg env d).map (ordKey cfg.output_dir) = (successPairs cfg env 0 d).map Prod.fst ∧
    ((successPairs cfg env 0 d).map Prod.fst).Pairwise (· < ·) ∧
    (∀ p ∈ successPairs cfg env 0 d, ∃ seg, d.get? p.1 = some seg ∧
      p.2 = pyStrip seg.speaker) := by
  have hb : ∀ p ∈ successPairs cfg env 0 d, p.1 ≤ 999 := by
    intro p hp
    have := (mem_successPairs_bounds cfg env d 0 p hp).2
    omega
  have hpairsLt : (successPairs cfg env 0 d).Pairwise (fun p q => p.1 < q.1) :=
    successPairs_pairwise cfg env d 0
  have hfileLt : ((successPairs cfg env 0 d).map
      (fun p => mkFilename cfg.output_dir p.1 p.2 cfg.audio_config.format)).Pairwise
      (fun a b => strLtb a b = true) := by
    rw [List.pairwise_map]
    refine hpairsLt.imp_of_mem ?_
    intro p q hp hq hlt
    exact mkFilename_lt p.2 q.2 cfg.audio_config.format hlt (hb q hq)
  have hmap := genLoop_fst_eq_map cfg env d 0
  have hsorted : ((genLoop cfg env 0 d).1).Pairwise pyLe := by
    rw [hmap]
    exact hfileLt.imp (fun h => pyLe_of_strLtb h)
  have hrg : runGen cfg env d = (genLoop cfg env 0 d).1 := pySorted_eq_of_sorted hsorted
  have h1 : runGen cfg env d = (successPairs cfg env 0 d).map
      (fun p => mkFilename cfg.output_dir p.1 p.2 cfg.audio_config.format) := by
    rw [hrg, hmap]
  refine ⟨h1, ?_, ?_, ?_, ?_⟩
  · rw [h1]
    exact hfileLt
  · rw [h1, List.map_map]
    refine List.map_congr_left ?_
    intro p hp
    simp only [Function.comp]
    exact ordKey_mkFilename cfg.output_dir p.2 cfg.audio_config.format (hb p hp)
  · rw [List.pairwise_map]
    exact hpairsLt
  · intro p hp
    obtain ⟨seg, hget, hsp, -⟩ := mem_successPairs_get cfg env d 0 p hp
    rw [Nat.sub_zero] at hget
    exact ⟨seg, hget, hsp⟩

/-- C1 witness: the amended statement at a three-line dialogue whose middle
line is skipped, so the produced ordinals are 0 and 2 with a gap. -/
theorem c1_amended_witness :
    (([⟨"A", "hi"⟩, ⟨" ", "x"⟩, ⟨"A", "yo"⟩] : List Seg).length ≤ 1000) ∧
    (runGen cfgA envAll [⟨"A", "hi"⟩, ⟨" ", "x"⟩, ⟨"A", "yo"⟩] =
        (successPairs cfgA envAll 0 [⟨"A", "hi"⟩, ⟨" ", "x"⟩, ⟨"A", "yo"⟩]).map
          (fun p => mkFilename cfgA.output_dir p.1 p.2 cfgA.audio_config.format) ∧
      (runGen cfgA envAll [⟨"A", "hi"⟩, ⟨" ", "x"⟩, ⟨"A", "yo"⟩]).Pairwise
        (fun a b => strLtb a b = true) ∧
      (runGen cfgA envAll [⟨"A", "hi"⟩, ⟨" ", "x"⟩, ⟨"A", "yo"⟩]).map
          (ordKey cfgA.output_dir) =
        (successPairs cfgA envAll 0 [⟨"A", "hi"⟩, ⟨" ", "x"⟩, ⟨"A", "yo"⟩]).map Prod.fst ∧
      ((successPairs cfgA envAll 0 [⟨"A", "hi"⟩, ⟨" ", "x"⟩, ⟨"A", "yo"⟩]).map
          Prod.fst).Pairwise (· < ·) ∧
      (∀ p ∈ successPairs cfgA envAll 0 [⟨"A", "hi"⟩, ⟨" ", "x"⟩, ⟨"A", "yo"⟩], ∃ seg,
        ([⟨"A", "hi"⟩, ⟨" ", "x"⟩, ⟨"A", "yo"⟩] : List Seg).get? p.1 = some seg ∧
          p.2 = pyStrip seg.speaker)) :=
  ⟨by decide, c1_amended cfgA envAll [⟨"A", "hi"⟩, ⟨" ", "x"⟩, ⟨"A", "yo"⟩] (by decide)⟩
